import Mathlib

/-!
Verification development for the RAG chatbot backend.

This file gives a shallow embedding of the two core components of the
repository, `backend/ai_generator.py` (the conversation orchestrator) and
`backend/session_manager.py` (the session store), and proves or refutes the
frozen specification claims about them.

Conventions of the embedding:
* Python exceptions are modelled with `Except String`: a raised exception is
  `Except.error msg`, normal return is `Except.ok`.
* The remote model (`self.client.messages.create`) is an oracle
  `Model := Nat → ApiParams → Except String ModelResponse`; the `Nat` is the
  index of the call within one `generate_response` invocation, so one oracle
  value describes an arbitrary sequence of model behaviours.  Every function
  that issues model calls also returns the list of `ApiParams` it sent, in
  order, so that "exactly one model call", "the fallback call advertises no
  tools", etc. are stateable.
* The tool manager (`tool_manager.execute_tool`) is
  `ToolMgr := String → List (String × String) → Except String String`
  (tool name, keyword arguments, textual result or raised exception).
* Wall-clock time (`datetime.utcnow()`) is an explicit `Nat` argument.
* The fixed system prompt text is an injected string constant
  (`AIGenerator.system_prompt`); no claim depends on its contents.
* Fixed request fields that no claim mentions (model name, temperature 0,
  max_tokens 800, `tool_choice = auto` whenever tools are present) are not
  carried in `ApiParams`.
-/

namespace RagChatbot

/-! ### Data model of the Anthropic messages API, as used by the code -/

/-- A content block of a model response: either a text block or a tool-use
block carrying a correlation id, a tool name and keyword arguments. -/
inductive ContentBlock where
  | text (t : String)
  | toolUse (id : String) (name : String) (input : List (String × String))
  deriving DecidableEq

/-- Python `content_block.type == "tool_use"`. -/
def ContentBlock.isToolUse : ContentBlock → Bool
  | .toolUse _ _ _ => true
  | .text _ => false

/-- A model response: a stop reason and an ordered list of content blocks. -/
structure ModelResponse where
  stop_reason : String
  content : List ContentBlock
  deriving DecidableEq

/-- One tool outcome dict `{"type": "tool_result", "tool_use_id": …, "content": …}`. -/
structure ToolResult where
  tool_use_id : String
  content : String
  deriving DecidableEq

/-- The content of one chat message: a plain string (the user query), the
assistant's content-block list, or a list of tool results. -/
inductive MsgContent where
  | str (s : String)
  | blocks (bs : List ContentBlock)
  | results (rs : List ToolResult)
  deriving DecidableEq

/-- One entry of the `messages` list sent to the model. -/
structure ChatMessage where
  role : String
  content : MsgContent
  deriving DecidableEq

/-- The request parameters of one model call that the claims talk about.
`tools = none` means the `"tools"` key is absent from the request. -/
structure ApiParams where
  messages : List ChatMessage
  system : String
  tools : Option (List String)
  deriving DecidableEq

/-- The model oracle: call index ↦ request ↦ raised exception or response. -/
abbrev Model := Nat → ApiParams → Except String ModelResponse

/-- The tool manager: `execute_tool(name, **input)`. -/
abbrev ToolMgr := String → List (String × String) → Except String String

/-- Python `response.content[0].text`: `IndexError` on an empty list,
`AttributeError` when the first block is a tool-use block. -/
def firstText : List ContentBlock → Except String String
  | [] => Except.error "IndexError: list index out of range"
  | .text t :: _ => Except.ok t
  | .toolUse _ _ _ :: _ => Except.error "AttributeError: no attribute text"

/-! ### Embedding of `backend/ai_generator.py` -/

/-- The hard round ceiling of `_execute_sequential_tools`. -/
def MAX_ROUNDS : Nat := 2

/-- The orchestrator: its only state relevant to the claims is the fixed
instructional system prompt (`SYSTEM_PROMPT` in the source). -/
structure AIGenerator where
  system_prompt : String

/-- One iteration of the tool-execution `for` loop body for a tool-use block:
the `try`/`except` converts a raised tool failure into the textual outcome
`"Tool execution error: <message>"` under the block's correlation id. -/
def execute_tool_block (tm : ToolMgr) (id name : String)
    (input : List (String × String)) : ToolResult :=
  match tm name input with
  | Except.ok r => { tool_use_id := id, content := r }
  | Except.error e => { tool_use_id := id, content := "Tool execution error: " ++ e }

/-- The tool-execution `for` loop of `_execute_single_tool_round`: every
tool-use block is executed in order; text blocks contribute nothing. -/
def collect_tool_results (tm : ToolMgr) : List ContentBlock → List ToolResult
  | [] => []
  | .text _ :: rest => collect_tool_results tm rest
  | .toolUse id name input :: rest =>
      execute_tool_block tm id name input :: collect_tool_results tm rest

/-- `_build_enhanced_system_prompt`: from round 2 onward a round-context note
is appended to the base system prompt. -/
def build_enhanced_system_prompt (base_system : String) (round_number : Nat) : String :=
  if round_number ≤ 1 then base_system
  else
    base_system ++ "\n\nCurrent execution context: Round " ++ toString round_number ++
      "/2 - You can use tool results from previous rounds to inform your next tool calls."

/-- The message list after the two in-place `append`s of
`_execute_single_tool_round`: the assistant's tool-use turn, then — only when
there is at least one tool outcome — a single user turn carrying all
outcomes in emission order. -/
def round_messages (tm : ToolMgr) (response : ModelResponse)
    (messages : List ChatMessage) : List ChatMessage :=
  let messages1 :=
    messages ++ [{ role := "assistant", content := MsgContent.blocks response.content }]
  let tool_results := collect_tool_results tm response.content
  if tool_results.isEmpty then messages1
  else messages1 ++ [{ role := "user", content := MsgContent.results tool_results }]

/-- The `next_params` built by `_execute_single_tool_round`: the accumulated
messages, the (possibly round-augmented) system prompt, and the base
parameters' tools (the `"tools"` key is copied only when present). -/
def round_params (base_params : ApiParams) (tm : ToolMgr) (response : ModelResponse)
    (messages : List ChatMessage) (round_number : Nat) : ApiParams :=
  { messages := round_messages tm response messages,
    system := build_enhanced_system_prompt base_params.system round_number,
    tools := base_params.tools }

/-- `_execute_single_tool_round`.  Returns the outcome of the follow-up model
call, the message list as mutated by the in-place `append`s (the caller sees
those appends even when the model call raises, because `messages` is mutated
before the call), and the parameters of the follow-up call. -/
def execute_single_tool_round (model : Model) (n : Nat) (response : ModelResponse)
    (base_params : ApiParams) (tm : ToolMgr) (messages : List ChatMessage)
    (round_number : Nat) :
    Except String ModelResponse × List ChatMessage × ApiParams :=
  (model n (round_params base_params tm response messages round_number),
   round_messages tm response messages,
   round_params base_params tm response messages round_number)

/-- `_should_continue_execution`. -/
def should_continue_execution (response : ModelResponse) (current_round max_rounds : Nat) : Bool :=
  if current_round ≥ max_rounds then false
  else response.content.any ContentBlock.isToolUse && (response.stop_reason == "tool_use")

/-- `_handle_tool_error`: one fallback model call on the accumulated messages
with the `"tools"` key withdrawn; any failure inside the `try` (the call
itself or the `content[0].text` access) degrades to the round-stamped error
message.  Never raises. -/
def handle_tool_error (model : Model) (n : Nat) (error : String) (round_number : Nat)
    (messages : List ChatMessage) (base_params : ApiParams) :
    Except String String × List ApiParams :=
  let error_msg := "I encountered an error while executing tools in round " ++
    toString round_number ++ ": " ++ error
  let fallback_params : ApiParams :=
    { messages := messages, system := base_params.system, tools := none }
  (match model n fallback_params with
   | Except.error _ => Except.ok error_msg
   | Except.ok resp =>
     match firstText resp.content with
     | Except.error _ => Except.ok error_msg
     | Except.ok t => Except.ok t,
   [fallback_params])

/-- `_extract_final_response`: first text on non-empty content (an
`AttributeError` propagates when the first block is a tool-use block), a
fixed apology string on empty content. -/
def extract_final_response (response : ModelResponse) : Except String String :=
  if response.content.isEmpty then
    Except.ok "I apologize, but I was unable to generate a proper response."
  else firstText response.content

/-- The `while current_round < MAX_ROUNDS` loop of `_execute_sequential_tools`,
with the remaining rounds `MAX_ROUNDS - current_round` as structural fuel and
`current_round` carried separately; `n` is the index of the next model call.
A raised round body is handled by `handle_tool_error` (whose answer is
returned, aborting the loop); the loop otherwise continues exactly when
`_should_continue_execution` says so.  The round body is
`execute_single_tool_round`, inlined here through its two helper
definitions. -/
def seq_loop (model : Model) (tm : ToolMgr) (base_params : ApiParams) :
    Nat → Nat → Nat → ModelResponse → List ChatMessage →
    Except String String × List ApiParams
  | 0, _, _, response, _ => (extract_final_response response, [])
  | fuel + 1, n, current_round, response, messages =>
    let r := current_round + 1
    let messages2 := round_messages tm response messages
    let p := round_params base_params tm response messages r
    match model n p with
    | Except.error e =>
      let res := handle_tool_error model (n + 1) e r messages2 base_params
      (res.fst, p :: res.snd)
    | Except.ok next_response =>
      if should_continue_execution next_response r MAX_ROUNDS then
        let res := seq_loop model tm base_params fuel (n + 1) r next_response messages2
        (res.fst, p :: res.snd)
      else
        (extract_final_response next_response, [p])

/-- `_execute_sequential_tools`: the round loop started at round 0 on a copy
of the base messages. -/
def execute_sequential_tools (model : Model) (n : Nat) (initial_response : ModelResponse)
    (base_params : ApiParams) (tm : ToolMgr) : Except String String × List ApiParams :=
  seq_loop model tm base_params MAX_ROUNDS n 0 initial_response base_params.messages

/-- Python truthiness of the optional history string. -/
def truthyString : Option String → Bool
  | none => false
  | some s => !s.isEmpty

/-- Python truthiness of the optional tools list (`if tools:`). -/
def truthyTools : Option (List String) → Bool
  | none => false
  | some l => !l.isEmpty

/-- `generate_response`: builds the system content and initial parameters,
issues the initial model call (unprotected: a raised call propagates), and
either enters the sequential-tool path or returns `response.content[0].text`
directly.  Also returns the list of issued request parameters. -/
def generate_response (g : AIGenerator) (model : Model) (query : String)
    (conversation_history : Option String) (tools : Option (List String))
    (tool_manager : Option ToolMgr) : Except String String × List ApiParams :=
  let system_content :=
    if truthyString conversation_history then
      g.system_prompt ++ "\n\nPrevious conversation:\n" ++ conversation_history.getD ""
    else g.system_prompt
  let api_params : ApiParams :=
    { messages := [{ role := "user", content := MsgContent.str query }],
      system := system_content,
      tools := if truthyTools tools then tools else none }
  match model 0 api_params with
  | Except.error e => (Except.error e, [api_params])
  | Except.ok response =>
    match tool_manager with
    | some tm =>
      if response.stop_reason == "tool_use" then
        let res := execute_sequential_tools model 1 response api_params tm
        (res.fst, api_params :: res.snd)
      else (firstText response.content, [api_params])
    | none => (firstText response.content, [api_params])

/-! ### Embedding of `backend/session_manager.py`

The store's dict is an association list with unique keys maintained by
`dictInsert`; the background cleanup thread and the lock are outside the
shallow embedding (every claim is about the serialized behaviour the lock
guarantees).  `datetime.utcnow()` is an explicit `now : Nat` argument. -/

/-- A single conversation message (`Message` dataclass). -/
structure Message where
  role : String
  content : String
  timestamp : Nat
  deriving DecidableEq

/-- Per-session state (`SessionInfo` dataclass). -/
structure SessionInfo where
  session_id : String
  messages : List Message
  created_at : Nat
  last_activity : Nat
  deriving DecidableEq

/-- Store state: the retention knob, the session dict and the id counter. -/
structure SessionManager where
  max_history : Nat
  sessions : List (String × SessionInfo)
  session_counter : Nat
  deriving DecidableEq

/-- Dict lookup (`sessions[key]` / `key in sessions`). -/
def dictFind? (d : List (String × SessionInfo)) (k : String) : Option SessionInfo :=
  match d with
  | [] => none
  | (k2, v) :: rest => if k2 = k then some v else dictFind? rest k

/-- Dict write (`sessions[key] = value`): replaces in place, else appends. -/
def dictInsert (d : List (String × SessionInfo)) (k : String) (v : SessionInfo) :
    List (String × SessionInfo) :=
  match d with
  | [] => [(k, v)]
  | (k2, v2) :: rest => if k2 = k then (k, v) :: rest else (k2, v2) :: dictInsert rest k v

/-- Dict delete (`del sessions[key]`, no-op when absent as in `clear_session`). -/
def dictErase (d : List (String × SessionInfo)) (k : String) :
    List (String × SessionInfo) :=
  match d with
  | [] => []
  | (k2, v) :: rest => if k2 = k then rest else (k2, v) :: dictErase rest k

/-- Python tail slice `l[-n:]`; for `n = 0` this is `l[0:]`, the whole list. -/
def pythonTailSlice (n : Nat) (l : List Message) : List Message :=
  if n = 0 then l else l.drop (l.length - n)

/-- A fresh empty store (`SessionManager(max_history, …)`). -/
def initStore (max_history : Nat) : SessionManager :=
  { max_history := max_history, sessions := [], session_counter := 0 }

/-- `create_session`: bump the counter, mint `session_<counter>`, store a
fresh empty session under it (overwriting whatever the id named). -/
def create_session (now : Nat) (m : SessionManager) : SessionManager × String :=
  let c := m.session_counter + 1
  let session_id := "session_" ++ toString c
  ({ m with
      session_counter := c,
      sessions := dictInsert m.sessions session_id
        { session_id := session_id, messages := [], created_at := now, last_activity := now } },
   session_id)

/-- `add_message`: implicit creation when absent, append, refresh activity,
then trim with the Python slice `messages[-max_history * 2:]` whenever the
length exceeds `max_history * 2`. -/
def add_message (now : Nat) (m : SessionManager) (session_id role content : String) :
    SessionManager :=
  let sessions1 :=
    match dictFind? m.sessions session_id with
    | some _ => m.sessions
    | none => dictInsert m.sessions session_id
        { session_id := session_id, messages := [], created_at := now, last_activity := now }
  match dictFind? sessions1 session_id with
  | none => m
  | some s =>
    let msgs1 := s.messages ++ [{ role := role, content := content, timestamp := now }]
    let msgs2 :=
      if msgs1.length > m.max_history * 2 then pythonTailSlice (m.max_history * 2) msgs1
      else msgs1
    let s2 := { s with messages := msgs2, last_activity := now }
    { m with sessions := dictInsert sessions1 session_id s2 }

/-- `add_exchange`: the user message then the assistant message. -/
def add_exchange (now : Nat) (m : SessionManager) (session_id user_message assistant_message : String) :
    SessionManager :=
  add_message now (add_message now m session_id "user" user_message)
    session_id "assistant" assistant_message

/-- Python `str.title()` restricted to what the code feeds it (ASCII roles):
the first alphabetic character of each word is upper-cased, subsequent ones
lower-cased. -/
def pyTitleAux : Bool → List Char → List Char
  | _, [] => []
  | prevAlpha, c :: rest =>
    let c2 := if c.isAlpha then (if prevAlpha then c.toLower else c.toUpper) else c
    c2 :: pyTitleAux c.isAlpha rest

/-- Python `str.title()` on a whole string. -/
def pyTitle (s : String) : String := String.mk (pyTitleAux false s.data)

/-- The rendering built by `get_conversation_history`: one
`"<Role>: <content>"` line per message, newline-joined, insertion order. -/
def format_history (msgs : List Message) : String :=
  String.intercalate "\n" (msgs.map fun msg => pyTitle msg.role ++ ": " ++ msg.content)

/-- `get_conversation_history`: `None` when the id is falsy (Python
`not session_id`: `None` or the empty string), unknown, or has no messages;
otherwise refreshes `last_activity` and returns the formatted rendering. -/
def get_conversation_history (now : Nat) (m : SessionManager) (session_id : Option String) :
    SessionManager × Option String :=
  match session_id with
  | none => (m, none)
  | some sid =>
    if sid.isEmpty then (m, none)
    else
      match dictFind? m.sessions sid with
      | none => (m, none)
      | some s =>
        if s.messages.isEmpty then (m, none)
        else
          ({ m with sessions := dictInsert m.sessions sid ({ s with last_activity := now }) },
           some (format_history s.messages))

/-- `clear_session`: removes the session when present, no-op otherwise. -/
def clear_session (m : SessionManager) (session_id : String) : SessionManager :=
  { m with sessions := dictErase m.sessions session_id }

/-- The messages currently stored for a session (empty when absent). -/
def sessionMessages (m : SessionManager) (session_id : String) : List Message :=
  match dictFind? m.sessions session_id with
  | some s => s.messages
  | none => []

/-- One externally-triggered store operation, for interleaving statements. -/
inductive StoreOp where
  | create (now : Nat)
  | addMessage (now : Nat) (session_id role content : String)
  | addExchange (now : Nat) (session_id user_message assistant_message : String)
  | getHistory (now : Nat) (session_id : Option String)
  | clear (session_id : String)

/-- Apply one store operation (discarding returned values). -/
def applyOp (m : SessionManager) : StoreOp → SessionManager
  | .create now => (create_session now m).fst
  | .addMessage now sid role content => add_message now m sid role content
  | .addExchange now sid u a => add_exchange now m sid u a
  | .getHistory now sid => (get_conversation_history now m sid).fst
  | .clear sid => clear_session m sid

/-- Apply a sequence of store operations in order. -/
def applyOps (m : SessionManager) (ops : List StoreOp) : SessionManager :=
  ops.foldl applyOp m

/-! ### Derived definitions used by the statements -/

/-- Correlation id of a content block (empty for text blocks). -/
def ContentBlock.blockId : ContentBlock → String
  | .toolUse id _ _ => id
  | .text _ => ""

/-- The per-block outcome of the tool-execution loop, as a partial map:
tool-use blocks yield their executed outcome, text blocks nothing. -/
def toolOutcome (tm : ToolMgr) : ContentBlock → Option ToolResult
  | .toolUse id name input => some (execute_tool_block tm id name input)
  | .text _ => none

/-- Store invariant: every stored session holds at most
`max_history * 2` messages. -/
def BoundedStore (m : SessionManager) : Prop :=
  ∀ pr ∈ m.sessions, pr.2.messages.length ≤ m.max_history * 2

/-- The last `n` elements of a list. -/
def lastN (n : Nat) (l : List Message) : List Message :=
  l.drop (l.length - n)

/-- The message built by `add_message` from a (role, content) pair. -/
def mkMsg (now : Nat) (rc : String × String) : Message :=
  { role := rc.fst, content := rc.snd, timestamp := now }

/-- Repeated `add_message` calls on one session. -/
def addAll (now : Nat) (m : SessionManager) (session_id : String)
    (L : List (String × String)) : SessionManager :=
  L.foldl (fun acc rc => add_message now acc session_id rc.fst rc.snd) m

/-- The session value stored by `add_message` when the session holding `s`
already exists: message appended, trimmed by the Python tail slice when the
length exceeds the bound, activity refreshed. -/
def trimmed_session (now : Nat) (hbound : Nat) (s : SessionInfo) (msg : Message) : SessionInfo :=
  { s with
    messages :=
      if (s.messages ++ [msg]).length > hbound then pythonTailSlice hbound (s.messages ++ [msg])
      else s.messages ++ [msg],
    last_activity := now }

/-! ### Concrete oracles for counterexamples and witnesses -/

/-- A model whose every call raises. -/
def cexModelFail : Model := fun _ _ => Except.error "boom"

/-- A model returning an empty-content final response immediately. -/
def cexModelEmpty : Model := fun _ _ => Except.ok ⟨"end_turn", []⟩

/-- A tool manager whose every execution raises. -/
def failTool : ToolMgr := fun _ _ => Except.error "boom"

/-- A tool manager whose every execution succeeds. -/
def okTool : ToolMgr := fun _ _ => Except.ok "found"

/-- A model requesting one tool, then answering with an empty text block. -/
def cexModelEmptyAnswer : Model := fun n _ =>
  if n = 0 then Except.ok ⟨"tool_use", [ContentBlock.toolUse "t1" "search" []]⟩
  else Except.ok ⟨"end_turn", [ContentBlock.text ""]⟩

/-- A model requesting one tool, then answering with a text response. -/
def wModelAfterError : Model := fun n _ =>
  if n = 0 then Except.ok ⟨"tool_use", [ContentBlock.toolUse "t1" "search" []]⟩
  else Except.ok ⟨"end_turn", [ContentBlock.text "after-error"]⟩

/-- A model requesting one tool, whose round-1 call raises and whose
fallback call succeeds. -/
def wModelRecover : Model := fun n _ =>
  if n = 0 then Except.ok ⟨"tool_use", [ContentBlock.toolUse "t1" "search" []]⟩
  else if n = 1 then Except.error "net down"
  else Except.ok ⟨"end_turn", [ContentBlock.text "recovered"]⟩

/-- A model requesting one tool, whose round-1 call and fallback call raise. -/
def wModelDoubleFail : Model := fun n _ =>
  if n = 0 then Except.ok ⟨"tool_use", [ContentBlock.toolUse "t1" "search" []]⟩
  else Except.error "net down"

/-- A model that answers with plain text right away. -/
def wModelPlain : Model := fun _ _ => Except.ok ⟨"end_turn", [ContentBlock.text "hi"]⟩

/-- A model requesting one tool, then answering with empty content. -/
def wModelEmptyFinal : Model := fun n _ =>
  if n = 0 then Except.ok ⟨"tool_use", [ContentBlock.toolUse "t1" "search" []]⟩
  else Except.ok ⟨"end_turn", []⟩

/-- A model stopping with `tool_use` but emitting no tool-use block, then
answering with text. -/
def wModelNoBlocks : Model := fun n _ =>
  if n = 0 then Except.ok ⟨"tool_use", [ContentBlock.text "thinking"]⟩
  else Except.ok ⟨"end_turn", [ContentBlock.text "done"]⟩

/-! ### Helper lemmas -/

theorem handle_tool_error_snd (model : Model) (n : Nat) (e : String) (r : Nat)
    (msgs : List ChatMessage) (bp : ApiParams) :
    (handle_tool_error model n e r msgs bp).snd =
      [{ messages := msgs, system := bp.system, tools := none }] := rfl

theorem handle_tool_error_fst_ok (model : Model) (n : Nat) (e : String) (r : Nat)
    (msgs : List ChatMessage) (bp : ApiParams) :
    ∃ s, (handle_tool_error model n e r msgs bp).fst = Except.ok s := by
  simp only [handle_tool_error]
  cases hm : model n { messages := msgs, system := bp.system, tools := none } with
  | error e2 => simp [hm]
  | ok resp =>
    cases ht : firstText resp.content with
    | error e3 => simp [hm, ht]
    | ok t => simp [hm, ht]

theorem seq_loop_snd_length (model : Model) (tm : ToolMgr) (bp : ApiParams) :
    ∀ (fuel n r : Nat) (resp : ModelResponse) (msgs : List ChatMessage),
      (seq_loop model tm bp fuel n r resp msgs).snd.length ≤ fuel + 1 := by
  intro fuel
  induction fuel with
  | zero => intro n r resp msgs; simp [seq_loop]
  | succ fuel ih =>
    intro n r resp msgs
    simp only [seq_loop]
    cases hm : model n (round_params bp tm resp msgs (r + 1)) with
    | error e =>
      simp only [handle_tool_error_snd, List.length_cons, List.length_nil]
      omega
    | ok resp2 =>
      by_cases hsc : should_continue_execution resp2 (r + 1) MAX_ROUNDS
      · have := ih (n + 1) (r + 1) resp2 (round_messages tm resp msgs)
        simp only [hsc, if_true, List.length_cons]
        omega
      · simp [hsc]

theorem generate_response_snd_length (g : AIGenerator) (model : Model) (query : String)
    (conversation_history : Option String) (tools : Option (List String))
    (tool_manager : Option ToolMgr) :
    (generate_response g model query conversation_history tools tool_manager).snd.length
      ≤ MAX_ROUNDS + 2 := by
  simp only [generate_response]
  cases hm : model 0 _ with
  | error e => simp [MAX_ROUNDS]
  | ok response =>
    cases tool_manager with
    | none => simp [MAX_ROUNDS]
    | some tm =>
      by_cases hsr : response.stop_reason == "tool_use"
      · have h : ∀ (bp : ApiParams),
            (execute_sequential_tools model 1 response bp tm).snd.length ≤ MAX_ROUNDS + 1 :=
          fun bp => seq_loop_snd_length model tm bp MAX_ROUNDS 1 0 response bp.messages
        simp only [hsr, if_true, List.length_cons]
        exact Nat.succ_le_succ (h _)
      · simp [hsr, MAX_ROUNDS]

/-- Claim C2: the round loop of `_execute_sequential_tools` issues at most
`MAX_ROUNDS + 1` model calls (at most one per round plus at most one
tools-free fallback), the whole `generate_response` issues at most
`MAX_ROUNDS + 2` (one initial call more), and `_should_continue_execution`
continues exactly when the round counter is still below `MAX_ROUNDS`, the
response carries at least one tool-use block, and its stop indicator is
`"tool_use"` — so no model call is ever issued past the round ceiling,
however many tool-use requests the model emits. -/
theorem round_loop_bounded (g : AIGenerator) (model : Model) (tm : ToolMgr)
    (query : String) (conversation_history : Option String) (tools : Option (List String))
    (tool_manager : Option ToolMgr) (n : Nat) (initial_response : ModelResponse)
    (base_params : ApiParams) :
    (execute_sequential_tools model n initial_response base_params tm).snd.length
      ≤ MAX_ROUNDS + 1 ∧
    (generate_response g model query conversation_history tools tool_manager).snd.length
      ≤ MAX_ROUNDS + 2 ∧
    ∀ (response : ModelResponse) (r : Nat),
      should_continue_execution response r MAX_ROUNDS =
        (decide (r < MAX_ROUNDS) &&
          (response.content.any ContentBlock.isToolUse && (response.stop_reason == "tool_use"))) := by
  refine ⟨?_, generate_response_snd_length g model query conversation_history tools tool_manager, ?_⟩
  · exact seq_loop_snd_length model tm base_params MAX_ROUNDS n 0 initial_response base_params.messages
  · intro response r
    by_cases h : r < MAX_ROUNDS
    · have h2 : ¬ r ≥ MAX_ROUNDS := by omega
      simp [should_continue_execution, h, h2]
    · have h2 : r ≥ MAX_ROUNDS := by omega
      simp [should_continue_execution, h, h2]

theorem seq_loop_two_unfold (model : Model) (tm : ToolMgr) (bp : ApiParams) (n r : Nat)
    (resp : ModelResponse) (msgs : List ChatMessage) :
    seq_loop model tm bp 2 n r resp msgs =
      (match model n (round_params bp tm resp msgs (r + 1)) with
       | Except.error e =>
         ((handle_tool_error model (n + 1) e (r + 1) (round_messages tm resp msgs) bp).fst,
          round_params bp tm resp msgs (r + 1) ::
            (handle_tool_error model (n + 1) e (r + 1) (round_messages tm resp msgs) bp).snd)
       | Except.ok nr =>
         if should_continue_execution nr (r + 1) MAX_ROUNDS then
           ((seq_loop model tm bp 1 (n + 1) (r + 1) nr (round_messages tm resp msgs)).fst,
            round_params bp tm resp msgs (r + 1) ::
              (seq_loop model tm bp 1 (n + 1) (r + 1) nr (round_messages tm resp msgs)).snd)
         else (extract_final_response nr, [round_params bp tm resp msgs (r + 1)])) := rfl

theorem seq_loop_one_unfold (model : Model) (tm : ToolMgr) (bp : ApiParams) (n r : Nat)
    (resp : ModelResponse) (msgs : List ChatMessage) :
    seq_loop model tm bp 1 n r resp msgs =
      (match model n (round_params bp tm resp msgs (r + 1)) with
       | Except.error e =>
         ((handle_tool_error model (n + 1) e (r + 1) (round_messages tm resp msgs) bp).fst,
          round_params bp tm resp msgs (r + 1) ::
            (handle_tool_error model (n + 1) e (r + 1) (round_messages tm resp msgs) bp).snd)
       | Except.ok nr =>
         if should_continue_execution nr (r + 1) MAX_ROUNDS then
           ((extract_final_response nr, ([] : List ApiParams)).fst,
            round_params bp tm resp msgs (r + 1) ::
              (extract_final_response nr, ([] : List ApiParams)).snd)
         else (extract_final_response nr, [round_params bp tm resp msgs (r + 1)])) := rfl

/-- Claim C1 (counterexample): a failure of the very first model call is not
caught anywhere in `generate_response` and propagates to the caller, so the
orchestrator does not turn every internal failure into a string result. -/
theorem respond_first_call_failure_raises :
    (generate_response ⟨"SP"⟩ cexModelFail "hello" none none none).fst
      = Except.error "boom" := rfl

/-- Claim C1 (amended): once the round loop is entered, a model-call failure
inside a round always resolves to a string — `_handle_tool_error` returns
`Except.ok` for every model behaviour, and a `generate_response` run whose
initial call succeeds with a tool-use stop and whose round-1 call raises
still returns a string.  The guarantee does not extend to the very first
model call (see the counterexample), whose failure propagates. -/
theorem round_failures_resolve_to_string (g : AIGenerator) (model : Model)
    (query : String) (conversation_history : Option String) (tools : Option (List String))
    (tm : ToolMgr) (r1 : ModelResponse) (e : String)
    (h0 : ∀ p, model 0 p = Except.ok r1)
    (hsr : r1.stop_reason = "tool_use")
    (h1 : ∀ p, model 1 p = Except.error e) :
    (∀ (model2 : Model) (n2 : Nat) (err : String) (rn : Nat) (msgs : List ChatMessage)
        (bp : ApiParams),
        ∃ s, (handle_tool_error model2 n2 err rn msgs bp).fst = Except.ok s) ∧
    ∃ s, (generate_response g model query conversation_history tools (some tm)).fst
      = Except.ok s := by
  refine ⟨handle_tool_error_fst_ok, ?_⟩
  simp only [generate_response]
  rw [h0]
  simp only [hsr, beq_self_eq_true, if_true, execute_sequential_tools, MAX_ROUNDS]
  rw [seq_loop_two_unfold, h1]
  exact handle_tool_error_fst_ok _ _ _ _ _ _

/-- Claim C1 (witness): a concrete run with a failing round-1 call and a
recovering fallback returns a string. -/
theorem round_failures_resolve_to_string_witness :
    ∃ s, (generate_response ⟨"SP"⟩ wModelRecover "q" none (some ["search"]) (some failTool)).fst
      = Except.ok s :=
  (round_failures_resolve_to_string ⟨"SP"⟩ wModelRecover "q" none (some ["search"]) failTool
    ⟨"tool_use", [ContentBlock.toolUse "t1" "search" []]⟩ "net down"
    (fun _ => rfl) rfl (fun _ => rfl)).2

theorem collect_tool_results_eq (tm : ToolMgr) (blocks : List ContentBlock) :
    collect_tool_results tm blocks = blocks.filterMap (toolOutcome tm) := by
  induction blocks with
  | nil => rfl
  | cons b rest ih =>
    cases b <;> simp [collect_tool_results, toolOutcome, List.filterMap_cons, ih]

theorem collect_tool_results_nil (tm : ToolMgr) (blocks : List ContentBlock)
    (h : blocks.any ContentBlock.isToolUse = false) :
    collect_tool_results tm blocks = [] := by
  induction blocks with
  | nil => rfl
  | cons b rest ih =>
    cases b with
    | text s =>
      simp only [List.any_cons, ContentBlock.isToolUse, Bool.false_or] at h
      simp [collect_tool_results, ih h]
    | toolUse id name input => simp [ContentBlock.isToolUse] at h

/-- Claim C3 (counterexample): with a tool manager that always raises and a
model whose follow-up answer is the empty text block, `generate_response`
returns the empty string — the per-tool failure is absorbed, but the claimed
"non-empty answer" fails. -/
theorem tool_failure_empty_answer :
    (generate_response ⟨"SP"⟩ cexModelEmptyAnswer "q" none (some ["search"]) (some failTool)).fst
      = Except.ok "" := rfl

/-- Claim C3 (amended): a raised tool execution is recorded as the outcome
`"Tool execution error: <message>"` under the raising request's id, the
tool-execution loop is total and executes every tool-use block of the
response in emission order (`collect_tool_results` equals the block-wise
`filterMap`), and — when the follow-up model call succeeds with a final text
response — `generate_response` returns that text; the returned answer may
however be empty when the model's final text is empty. -/
theorem tool_errors_textualized (g : AIGenerator) (model : Model) (query : String)
    (conversation_history : Option String) (tools : Option (List String)) (tm : ToolMgr)
    (r1 : ModelResponse) (sr2 t : String)
    (h0 : ∀ p, model 0 p = Except.ok r1)
    (hsr : r1.stop_reason = "tool_use")
    (h1 : ∀ p, model 1 p = Except.ok ⟨sr2, [ContentBlock.text t]⟩) :
    (∀ (id name : String) (input : List (String × String)) (e : String),
        tm name input = Except.error e →
        execute_tool_block tm id name input
          = { tool_use_id := id, content := "Tool execution error: " ++ e }) ∧
    (∀ blocks, collect_tool_results tm blocks = blocks.filterMap (toolOutcome tm)) ∧
    (generate_response g model query conversation_history tools (some tm)).fst
      = Except.ok t := by
  refine ⟨?_, collect_tool_results_eq tm, ?_⟩
  · intro id name input e he
    simp [execute_tool_block, he]
  · simp only [generate_response]
    rw [h0]
    simp only [hsr, beq_self_eq_true, if_true, execute_sequential_tools, MAX_ROUNDS]
    rw [seq_loop_two_unfold, h1]
    simp [should_continue_execution, ContentBlock.isToolUse, extract_final_response, firstText]

/-- Claim C3 (witness): a concrete run with an always-raising tool manager
returns the model's follow-up text. -/
theorem tool_errors_textualized_witness :
    (generate_response ⟨"SP"⟩ wModelAfterError "q" none (some ["search"]) (some failTool)).fst
      = Except.ok "after-error" :=
  (tool_errors_textualized ⟨"SP"⟩ wModelAfterError "q" none (some ["search"]) failTool
    ⟨"tool_use", [ContentBlock.toolUse "t1" "search" []]⟩ "end_turn" "after-error"
    (fun _ => rfl) rfl (fun _ => rfl)).2.2

/-- Claim C4: when an exception escapes a round body (the round's model call
raises), the round loop is aborted: exactly one fallback model call is
issued, on the accumulated message history, with the base system prompt and
the tool schemas withdrawn (so it can never request tool use); the
fallback's text is returned when it yields one, and when the fallback itself
raises the returned string is the error text naming the failing round. -/
theorem round_failure_fallback (g : AIGenerator) (model : Model) (query : String)
    (conversation_history : Option String) (tools : Option (List String)) (tm : ToolMgr)
    (r1 : ModelResponse) (e : String)
    (h0 : ∀ p, model 0 p = Except.ok r1)
    (hsr : r1.stop_reason = "tool_use")
    (h1 : ∀ p, model 1 p = Except.error e) :
    (∀ (n2 : Nat) (err : String) (rn : Nat) (msgs : List ChatMessage) (bp : ApiParams),
        (handle_tool_error model n2 err rn msgs bp).snd
          = [{ messages := msgs, system := bp.system, tools := none }]) ∧
    (∀ (n2 : Nat) (err : String) (rn : Nat) (msgs : List ChatMessage) (bp : ApiParams)
        (sr t : String) (rest : List ContentBlock),
        (∀ p, model n2 p = Except.ok ⟨sr, ContentBlock.text t :: rest⟩) →
        (handle_tool_error model n2 err rn msgs bp).fst = Except.ok t) ∧
    (∀ (n2 : Nat) (err : String) (rn : Nat) (msgs : List ChatMessage) (bp : ApiParams)
        (e2 : String),
        (∀ p, model n2 p = Except.error e2) →
        (handle_tool_error model n2 err rn msgs bp).fst
          = Except.ok ("I encountered an error while executing tools in round "
              ++ toString rn ++ ": " ++ err)) ∧
    (∀ (bp : ApiParams) (n : Nat) (resp : ModelResponse) (e3 : String),
        (∀ p, model n p = Except.error e3) →
        execute_sequential_tools model n resp bp tm
          = ((handle_tool_error model (n + 1) e3 1 (round_messages tm resp bp.messages) bp).fst,
             [round_params bp tm resp bp.messages 1,
              { messages := round_messages tm resp bp.messages,
                system := bp.system, tools := none }])) ∧
    (generate_response g model query conversation_history tools (some tm)).snd.length = 3 := by
  refine ⟨handle_tool_error_snd model, ?_, ?_, ?_, ?_⟩
  · intro n2 err rn msgs bp sr t rest hok
    simp only [handle_tool_error]
    rw [hok]
    simp [firstText]
  · intro n2 err rn msgs bp e2 herr
    simp only [handle_tool_error]
    rw [herr]
  · intro bp n resp e3 hme
    simp only [execute_sequential_tools, MAX_ROUNDS]
    rw [seq_loop_two_unfold, hme]
    simp [handle_tool_error_snd]
  · simp only [generate_response]
    rw [h0]
    simp only [hsr, beq_self_eq_true, if_true, execute_sequential_tools, MAX_ROUNDS]
    rw [seq_loop_two_unfold, h1]
    simp [handle_tool_error_snd]

/-- Claim C4 (witness): a concrete run whose round-1 call and fallback call
both raise issues exactly three model calls, and the error text names
round 1. -/
theorem round_failure_fallback_witness :
    (generate_response ⟨"SP"⟩ wModelDoubleFail "q" none (some ["search"]) (some failTool)).snd.length
        = 3 ∧
    (handle_tool_error wModelDoubleFail 2 "net down" 1 [] ⟨[], "SP", none⟩).fst
      = Except.ok "I encountered an error while executing tools in round 1: net down" := by
  have h := round_failure_fallback ⟨"SP"⟩ wModelDoubleFail "q" none (some ["search"]) failTool
    ⟨"tool_use", [ContentBlock.toolUse "t1" "search" []]⟩ "net down"
    (fun _ => rfl) rfl (fun _ => rfl)
  exact ⟨h.2.2.2.2, h.2.2.1 2 "net down" 1 [] ⟨[], "SP", none⟩ "net down" (fun _ => rfl)⟩

/-- Claim C5: under the model-call contract that a model never signals tool
use on a request advertising no tools, a query with no (truthy) tool schemas
— and likewise any query whose initial response does not signal tool use, or
for which no tool manager is supplied — makes `generate_response` issue
exactly one model call and return that response's first text verbatim; the
round loop is never entered. -/
theorem fast_path_single_call (g : AIGenerator) (model : Model) (query : String)
    (conversation_history : Option String) (tools : Option (List String))
    (tool_manager : Option ToolMgr) (r : ModelResponse) (t : String)
    (hcontract : ∀ (n : Nat) (p : ApiParams), p.tools = none →
        ∀ resp, model n p = Except.ok resp → resp.stop_reason ≠ "tool_use")
    (h0 : ∀ p, model 0 p = Except.ok r)
    (hfast : truthyTools tools = false ∨ r.stop_reason ≠ "tool_use" ∨ tool_manager = none)
    (ht : firstText r.content = Except.ok t) :
    (generate_response g model query conversation_history tools tool_manager).fst
        = Except.ok t ∧
    (generate_response g model query conversation_history tools tool_manager).snd.length
        = 1 := by
  have hbe : (r.stop_reason == "tool_use") = false ∨ tool_manager = none := by
    rcases hfast with hf | hf | hf
    · exact Or.inl (beq_eq_false_iff_ne.mpr
        (hcontract 0 { messages := [], system := "", tools := none } rfl r (h0 _)))
    · exact Or.inl (beq_eq_false_iff_ne.mpr hf)
    · exact Or.inr hf
  constructor <;>
  · simp only [generate_response]
    rw [h0]
    rcases hbe with hb | hb
    · cases tool_manager with
      | none => simp [ht]
      | some tm => simp [hb, ht]
    · subst hb
      simp [ht]

/-- Claim C5 (witness): a plain-text model with no tools supplied yields the
text verbatim from a single call. -/
theorem fast_path_single_call_witness :
    (generate_response ⟨"SP"⟩ wModelPlain "q" none none none).fst = Except.ok "hi" ∧
    (generate_response ⟨"SP"⟩ wModelPlain "q" none none none).snd.length = 1 :=
  fast_path_single_call ⟨"SP"⟩ wModelPlain "q" none none none
    ⟨"end_turn", [ContentBlock.text "hi"]⟩ "hi"
    (by
      intro n p hp resp hr
      injection hr with h2
      subst h2
      decide)
    (fun _ => rfl) (Or.inl rfl) rfl

/-- Claim C6 (counterexample): on the zero-tool fast path an empty content
list raises an index error out of `generate_response` instead of producing
the apology string. -/
theorem empty_response_fast_path_raises :
    (generate_response ⟨"SP"⟩ cexModelEmpty "q" none none none).fst
      = Except.error "IndexError: list index out of range" := rfl

/-- Claim C6 (amended): only the round-loop final extraction substitutes the
apology: `_extract_final_response` maps any empty-content response to the
fixed apology string, and a run whose round loop terminates on an
empty-content response returns it; on the zero-tool fast path an empty
response raises instead (see the counterexample), and in the fallback path
it yields the round error text. -/
theorem empty_final_response_apology (g : AIGenerator) (model : Model) (query : String)
    (conversation_history : Option String) (tools : Option (List String)) (tm : ToolMgr)
    (r1 : ModelResponse) (sr2 : String)
    (h0 : ∀ p, model 0 p = Except.ok r1)
    (hsr : r1.stop_reason = "tool_use")
    (h1 : ∀ p, model 1 p = Except.ok ⟨sr2, []⟩) :
    (∀ sr, extract_final_response ⟨sr, []⟩
        = Except.ok "I apologize, but I was unable to generate a proper response.") ∧
    (generate_response g model query conversation_history tools (some tm)).fst
      = Except.ok "I apologize, but I was unable to generate a proper response." := by
  refine ⟨fun sr => rfl, ?_⟩
  simp only [generate_response]
  rw [h0]
  simp only [hsr, beq_self_eq_true, if_true, execute_sequential_tools, MAX_ROUNDS]
  rw [seq_loop_two_unfold, h1]
  simp [should_continue_execution, extract_final_response]

/-- Claim C6 (witness): a concrete run whose follow-up response has empty
content returns the apology. -/
theorem empty_final_response_apology_witness :
    (generate_response ⟨"SP"⟩ wModelEmptyFinal "q" none (some ["search"]) (some okTool)).fst
      = Except.ok "I apologize, but I was unable to generate a proper response." :=
  (empty_final_response_apology ⟨"SP"⟩ wModelEmptyFinal "q" none (some ["search"]) okTool
    ⟨"tool_use", [ContentBlock.toolUse "t1" "search" []]⟩ "end_turn"
    (fun _ => rfl) rfl (fun _ => rfl)).2

/-- Claim C10: when the initial response signals tool use and a tool manager
is supplied but the content holds no tool-use block, the round loop is still
entered: the assistant turn is appended to the message history, no
tool-result user turn follows (the empty outcome list is suppressed), and a
follow-up model call is issued whose extracted result is returned. -/
theorem tool_use_stop_without_blocks (g : AIGenerator) (model : Model) (query : String)
    (conversation_history : Option String) (tools : Option (List String)) (tm : ToolMgr)
    (r1 r2 : ModelResponse)
    (h0 : ∀ p, model 0 p = Except.ok r1)
    (hsr : r1.stop_reason = "tool_use")
    (hnb : r1.content.any ContentBlock.isToolUse = false)
    (h1 : ∀ p, model 1 p = Except.ok r2)
    (hsr2 : r2.stop_reason ≠ "tool_use") :
    (generate_response g model query conversation_history tools (some tm)).fst
        = extract_final_response r2 ∧
    ∃ p0 p1, (generate_response g model query conversation_history tools (some tm)).snd
        = [p0, p1] ∧
      p1.messages = p0.messages
        ++ [{ role := "assistant", content := MsgContent.blocks r1.content }] := by
  have hcollect := collect_tool_results_nil tm r1.content hnb
  have hrm : ∀ msgs, round_messages tm r1 msgs
      = msgs ++ [{ role := "assistant", content := MsgContent.blocks r1.content }] := by
    intro msgs
    simp [round_messages, hcollect]
  have hsc : should_continue_execution r2 (0 + 1) MAX_ROUNDS = false := by
    simp [should_continue_execution, MAX_ROUNDS, beq_eq_false_iff_ne.mpr hsr2]
  constructor
  · simp only [generate_response]
    rw [h0]
    simp only [hsr, beq_self_eq_true, if_true, execute_sequential_tools, MAX_ROUNDS]
    rw [seq_loop_two_unfold, h1]
    simp [hsc]
  · simp only [generate_response]
    rw [h0]
    simp only [hsr, beq_self_eq_true, if_true, execute_sequential_tools, MAX_ROUNDS]
    rw [seq_loop_two_unfold, h1]
    simp only [hsc, if_false, Bool.false_eq_true]
    refine ⟨_, _, rfl, ?_⟩
    simp [round_params, hrm]

/-- Claim C10 (witness): a concrete run with a tool-use stop but no tool-use
blocks returns the follow-up text from two calls. -/
theorem tool_use_stop_without_blocks_witness :
    (generate_response ⟨"SP"⟩ wModelNoBlocks "q" none (some ["search"]) (some okTool)).fst
      = Except.ok "done" := by
  have h := tool_use_stop_without_blocks ⟨"SP"⟩ wModelNoBlocks "q" none (some ["search"]) okTool
    ⟨"tool_use", [ContentBlock.text "thinking"]⟩ ⟨"end_turn", [ContentBlock.text "done"]⟩
    (fun _ => rfl) rfl rfl (fun _ => rfl) (by decide)
  rw [h.1]
  rfl

theorem dictFind?_insert_self (d : List (String × SessionInfo)) (k : String) (v : SessionInfo) :
    dictFind? (dictInsert d k v) k = some v := by
  induction d with
  | nil => simp [dictInsert, dictFind?]
  | cons p rest ih =>
    rcases p with ⟨k2, v2⟩
    by_cases h : k2 = k
    · simp [dictInsert, dictFind?, h]
    · simp [dictInsert, dictFind?, h, ih]

theorem dictFind?_mem (d : List (String × SessionInfo)) (k : String) (v : SessionInfo)
    (h : dictFind? d k = some v) : (k, v) ∈ d := by
  induction d with
  | nil => simp [dictFind?] at h
  | cons p rest ih =>
    rcases p with ⟨k2, v2⟩
    by_cases hk : k2 = k
    · simp [dictFind?, hk] at h
      subst hk
      subst h
      exact List.mem_cons_self _ _
    · simp [dictFind?, hk] at h
      exact List.mem_cons_of_mem _ (ih h)

theorem mem_dictInsert (d : List (String × SessionInfo)) (k : String) (v : SessionInfo)
    (x : String × SessionInfo) (hx : x ∈ dictInsert d k v) : x = (k, v) ∨ x ∈ d := by
  induction d with
  | nil =>
    simp only [dictInsert, List.mem_singleton] at hx
    exact Or.inl hx
  | cons p rest ih =>
    rcases p with ⟨k2, v2⟩
    by_cases h : k2 = k
    · simp only [dictInsert, h, if_true, List.mem_cons] at hx
      rcases hx with h1 | h1
      · exact Or.inl h1
      · exact Or.inr (List.mem_cons_of_mem _ h1)
    · simp only [dictInsert, h, if_false, List.mem_cons] at hx
      rcases hx with h1 | h1
      · exact Or.inr (by simp [h1])
      · rcases ih h1 with h2 | h2
        · exact Or.inl h2
        · exact Or.inr (List.mem_cons_of_mem _ h2)

theorem mem_dictErase (d : List (String × SessionInfo)) (k : String)
    (x : String × SessionInfo) (hx : x ∈ dictErase d k) : x ∈ d := by
  induction d with
  | nil => simp [dictErase] at hx
  | cons p rest ih =>
    rcases p with ⟨k2, v2⟩
    by_cases h : k2 = k
    · simp only [dictErase, h, if_true] at hx
      exact List.mem_cons_of_mem _ hx
    · simp only [dictErase, h, if_false, List.mem_cons] at hx
      rcases hx with h1 | h1
      · simp [h1]
      · exact List.mem_cons_of_mem _ (ih h1)

theorem add_message_found (now : Nat) (m : SessionManager) (sid role content : String)
    (s : SessionInfo) (hs : dictFind? m.sessions sid = some s) :
    (add_message now m sid role content).sessions
      = dictInsert m.sessions sid
          (trimmed_session now (m.max_history * 2) s ⟨role, content, now⟩) := by
  simp [add_message, hs, trimmed_session]

theorem add_message_absent_eq (now : Nat) (m : SessionManager) (sid role content : String)
    (hs : dictFind? m.sessions sid = none) :
    add_message now m sid role content
      = add_message now
          { m with sessions := dictInsert m.sessions sid ⟨sid, [], now, now⟩ }
          sid role content := by
  simp [add_message, hs, dictFind?_insert_self]

theorem add_message_max_history (now : Nat) (m : SessionManager) (sid role content : String) :
    (add_message now m sid role content).max_history = m.max_history := by
  cases hs : dictFind? m.sessions sid <;>
    simp [add_message, hs, dictFind?_insert_self]

theorem add_message_session_counter (now : Nat) (m : SessionManager) (sid role content : String) :
    (add_message now m sid role content).session_counter = m.session_counter := by
  cases hs : dictFind? m.sessions sid <;>
    simp [add_message, hs, dictFind?_insert_self]

theorem pythonTailSlice_length (n : Nat) (l : List Message) (hn : n ≠ 0) :
    (pythonTailSlice n l).length = l.length - (l.length - n) := by
  simp [pythonTailSlice, hn, List.length_drop]

theorem lastN_of_le (n : Nat) (l : List Message) (h : l.length ≤ n) : lastN n l = l := by
  have h2 : l.length - n = 0 := by omega
  simp [lastN, h2]

theorem lastN_length (n : Nat) (l : List Message) : (lastN n l).length = min n l.length := by
  simp only [lastN, List.length_drop]
  omega

theorem trim_lastN (n : Nat) (hn : 1 ≤ n) (P : List Message) (a : Message) :
    (if (lastN n P ++ [a]).length > n then pythonTailSlice n (lastN n P ++ [a])
     else lastN n P ++ [a]) = lastN n (P ++ [a]) := by
  by_cases hP : P.length < n
  · have h1 : lastN n P = P := lastN_of_le n P (by omega)
    have h2 : lastN n (P ++ [a]) = P ++ [a] :=
      lastN_of_le n _ (by simp [List.length_append]; omega)
    rw [h1, h2, if_neg (by simp [List.length_append]; omega)]
  · have hPn : n ≤ P.length := by omega
    have hlen : (lastN n P).length = n := by rw [lastN_length]; omega
    rw [if_pos (by simp [List.length_append, hlen])]
    unfold pythonTailSlice
    rw [if_neg (by omega : ¬ n = 0)]
    have hd1 : (lastN n P ++ [a]).length - n = 1 := by simp [List.length_append, hlen]
    rw [hd1, List.drop_append_of_le_length (by omega : 1 ≤ (lastN n P).length)]
    unfold lastN
    rw [List.drop_drop]
    have h3 : (P ++ [a]).length - n = P.length + 1 - n := by simp [List.length_append]
    rw [h3, List.drop_append_of_le_length (by omega : P.length + 1 - n ≤ P.length)]
    have h4 : P.length - n + 1 = P.length + 1 - n := by omega
    rw [h4]

theorem add_message_lastN (now : Nat) (m : SessionManager) (sid role content : String)
    (s : SessionInfo) (P : List Message) (hh : 1 ≤ m.max_history)
    (hs : dictFind? m.sessions sid = some s)
    (hmsgs : s.messages = lastN (m.max_history * 2) P) :
    dictFind? (add_message now m sid role content).sessions sid
      = some (trimmed_session now (m.max_history * 2) s ⟨role, content, now⟩) ∧
    (trimmed_session now (m.max_history * 2) s ⟨role, content, now⟩).messages
      = lastN (m.max_history * 2) (P ++ [⟨role, content, now⟩]) := by
  constructor
  · rw [add_message_found now m sid role content s hs]
    exact dictFind?_insert_self _ _ _
  · simp only [trimmed_session, hmsgs]
    exact trim_lastN (m.max_history * 2) (by omega) P _

theorem addAll_lastN (now : Nat) (sid : String) :
    ∀ (L : List (String × String)) (m : SessionManager) (s : SessionInfo) (P : List Message),
      1 ≤ m.max_history →
      dictFind? m.sessions sid = some s →
      s.messages = lastN (m.max_history * 2) P →
      ∃ s2, dictFind? (addAll now m sid L).sessions sid = some s2 ∧
        s2.messages = lastN (m.max_history * 2) (P ++ L.map (mkMsg now)) ∧
        (addAll now m sid L).max_history = m.max_history := by
  intro L
  induction L with
  | nil =>
    intro m s P _ hfind hmsgs
    exact ⟨s, hfind, by simpa using hmsgs, rfl⟩
  | cons rc rest ih =>
    intro m s P hh hfind hmsgs
    have hstep : addAll now m sid (rc :: rest)
        = addAll now (add_message now m sid rc.fst rc.snd) sid rest := rfl
    rw [hstep]
    have hmax := add_message_max_history now m sid rc.fst rc.snd
    have h1 := add_message_lastN now m sid rc.fst rc.snd s P hh hfind hmsgs
    have h2 := ih (add_message now m sid rc.fst rc.snd)
      (trimmed_session now (m.max_history * 2) s ⟨rc.fst, rc.snd, now⟩)
      (P ++ [⟨rc.fst, rc.snd, now⟩])
      (by rw [hmax]; exact hh) h1.1 (by rw [hmax]; exact h1.2)
    rcases h2 with ⟨s2, hf2, hm2, hmax2⟩
    refine ⟨s2, hf2, ?_, by rw [hmax2, hmax]⟩
    rw [hm2, hmax]
    congr 1
    simp [mkMsg]

theorem BoundedStore_add_message_found (now : Nat) (m : SessionManager)
    (sid role content : String) (s : SessionInfo)
    (hh : 1 ≤ m.max_history) (hfind : dictFind? m.sessions sid = some s)
    (hb : BoundedStore m) : BoundedStore (add_message now m sid role content) := by
  intro pr hpr
  rw [add_message_max_history]
  rw [add_message_found now m sid role content s hfind] at hpr
  rcases mem_dictInsert _ _ _ _ hpr with h1 | h1
  · rw [h1]
    simp only [trimmed_session]
    split
    · rw [pythonTailSlice_length _ _ (by omega)]
      omega
    · next hcond =>
      simp only [List.length_append, List.length_cons, List.length_nil] at hcond ⊢
      omega
  · exact hb pr h1

theorem BoundedStore_add_message (now : Nat) (m : SessionManager) (sid role content : String)
    (hh : 1 ≤ m.max_history) (hb : BoundedStore m) :
    BoundedStore (add_message now m sid role content) := by
  cases hfind : dictFind? m.sessions sid with
  | some s => exact BoundedStore_add_message_found now m sid role content s hh hfind hb
  | none =>
    rw [add_message_absent_eq now m sid role content hfind]
    refine BoundedStore_add_message_found now _ sid role content _ hh
      (dictFind?_insert_self m.sessions sid _) ?_
    intro pr hpr
    rcases mem_dictInsert _ _ _ _ hpr with h1 | h1
    · rw [h1]
      simp
    · exact hb pr h1

theorem get_history_max_history (now : Nat) (m : SessionManager) (sid : Option String) :
    (get_conversation_history now m sid).fst.max_history = m.max_history := by
  unfold get_conversation_history
  cases sid with
  | none => rfl
  | some s =>
    by_cases hie : s.isEmpty
    · simp [hie]
    · simp only [hie, Bool.false_eq_true, if_false]
      cases hf : dictFind? m.sessions s with
      | none => rfl
      | some info =>
        by_cases hm : info.messages.isEmpty
        · simp [hm]
        · simp [hm]

theorem BoundedStore_get_history (now : Nat) (m : SessionManager) (sid : Option String)
    (hb : BoundedStore m) : BoundedStore (get_conversation_history now m sid).fst := by
  unfold get_conversation_history
  cases sid with
  | none => exact hb
  | some s =>
    by_cases hie : s.isEmpty
    · simpa [hie] using hb
    · simp only [hie, Bool.false_eq_true, if_false]
      cases hf : dictFind? m.sessions s with
      | none => exact hb
      | some info =>
        by_cases hm : info.messages.isEmpty
        · simpa [hm] using hb
        · simp only [hm, Bool.false_eq_true, if_false]
          intro pr hpr
          rcases mem_dictInsert _ _ _ _ hpr with h1 | h1
          · rw [h1]
            exact hb (s, info) (dictFind?_mem _ _ _ hf)
          · exact hb pr h1

theorem applyOp_max_history (m : SessionManager) (op : StoreOp) :
    (applyOp m op).max_history = m.max_history := by
  cases op with
  | create now => rfl
  | addMessage now sid role content => exact add_message_max_history now m sid role content
  | addExchange now sid u a =>
    show (add_exchange now m sid u a).max_history = m.max_history
    unfold add_exchange
    rw [add_message_max_history, add_message_max_history]
  | getHistory now sid => exact get_history_max_history now m sid
  | clear sid => rfl

theorem BoundedStore_applyOp (m : SessionManager) (op : StoreOp)
    (hh : 1 ≤ m.max_history) (hb : BoundedStore m) : BoundedStore (applyOp m op) := by
  cases op with
  | create now =>
    intro pr hpr
    simp only [applyOp, create_session] at hpr ⊢
    rcases mem_dictInsert _ _ _ _ hpr with h1 | h1
    · rw [h1]
      simp
    · exact hb pr h1
  | addMessage now sid role content => exact BoundedStore_add_message now m sid role content hh hb
  | addExchange now sid u a =>
    have h1 := BoundedStore_add_message now m sid "user" u hh hb
    exact BoundedStore_add_message now _ sid "assistant" a
      (by rw [add_message_max_history]; exact hh) h1
  | getHistory now sid => exact BoundedStore_get_history now m sid hb
  | clear sid =>
    intro pr hpr
    exact hb pr (mem_dictErase _ _ _ hpr)

theorem BoundedStore_applyOps (ops : List StoreOp) :
    ∀ m, 1 ≤ m.max_history → BoundedStore m → BoundedStore (applyOps m ops) := by
  induction ops with
  | nil => intro m _ hb; exact hb
  | cons op rest ih =>
    intro m hh hb
    have hstep : applyOps m (op :: rest) = applyOps (applyOp m op) rest := rfl
    rw [hstep]
    exact ih _ (by rw [applyOp_max_history]; exact hh) (BoundedStore_applyOp m op hh hb)

/-- Claim C7 (counterexample): with `max_history = 0` the Python slice
`messages[-0:]` is the whole list, so the session grows past the claimed
`2 × max_history = 0` bound already after one `add_message`. -/
theorem history_bound_violated_at_zero_max :
    (sessionMessages
        (add_message 0 (add_message 0 (initStore 0) "s" "user" "a") "s" "user" "b") "s").length
      = 2 ∧ (initStore 0).max_history * 2 = 0 :=
  ⟨rfl, rfl⟩

/-- Claim C7 (amended): for `max_history ≥ 1`, every sequence of store
operations started from a fresh store keeps every session's message list
within `max_history * 2` entries, and `2 × max_history + k` successive
`add_message` calls on one session leave exactly the `2 × max_history` most
recent messages in their original insertion order (the oldest `k` dropped);
for `max_history = 0` the Python tail slice `[-0:]` disables trimming, so
the bound fails there (see the counterexample). -/
theorem history_bound_and_trim (h k now : Nat) (sid : String)
    (L : List (String × String)) (ops : List StoreOp)
    (hh : 1 ≤ h) (hL : L.length = h * 2 + k) :
    BoundedStore (applyOps (initStore h) ops) ∧
    sessionMessages (addAll now (initStore h) sid L) sid = (L.map (mkMsg now)).drop k ∧
    (sessionMessages (addAll now (initStore h) sid L) sid).length = h * 2 := by
  have hbound : BoundedStore (applyOps (initStore h) ops) :=
    BoundedStore_applyOps ops (initStore h) hh (by intro pr hpr; simp [initStore] at hpr)
  obtain ⟨rc, rest, rfl⟩ : ∃ rc rest, L = rc :: rest := by
    cases L with
    | nil => simp at hL; omega
    | cons a b => exact ⟨a, b, rfl⟩
  have h0 : dictFind? (initStore h).sessions sid = none := rfl
  have hrw : addAll now (initStore h) sid (rc :: rest)
      = addAll now
          { initStore h with
            sessions := dictInsert (initStore h).sessions sid ⟨sid, [], now, now⟩ }
          sid (rc :: rest) := by
    have e1 : addAll now (initStore h) sid (rc :: rest)
        = addAll now (add_message now (initStore h) sid rc.fst rc.snd) sid rest := rfl
    rw [e1, add_message_absent_eq now (initStore h) sid rc.fst rc.snd h0]
    rfl
  have hmain : sessionMessages (addAll now (initStore h) sid (rc :: rest)) sid
      = lastN (h * 2) ((rc :: rest).map (mkMsg now)) := by
    rw [hrw]
    obtain ⟨s2, hf2, hm2, _⟩ := addAll_lastN now sid (rc :: rest)
      { initStore h with
        sessions := dictInsert (initStore h).sessions sid ⟨sid, [], now, now⟩ }
      ⟨sid, [], now, now⟩ [] hh (dictFind?_insert_self _ _ _) (by simp [lastN])
    unfold sessionMessages
    rw [hf2]
    show s2.messages = _
    rw [hm2]
    simp [initStore]
  refine ⟨hbound, ?_, ?_⟩
  · rw [hmain, lastN]
    congr 1
    simp only [List.length_map, hL]
    omega
  · rw [hmain, lastN_length]
    simp only [List.length_map, hL]
    omega

/-- Claim C7 (witness): three adds to a store with `max_history = 1` keep
exactly the two most recent messages in order. -/
theorem history_bound_and_trim_witness :
    BoundedStore (applyOps (initStore 1) []) ∧
    sessionMessages
        (addAll 0 (initStore 1) "s" [("user", "a"), ("assistant", "b"), ("user", "c")]) "s"
      = ([("user", "a"), ("assistant", "b"), ("user", "c")].map (mkMsg 0)).drop 1 ∧
    (sessionMessages
        (addAll 0 (initStore 1) "s" [("user", "a"), ("assistant", "b"), ("user", "c")]) "s").length
      = 1 * 2 :=
  history_bound_and_trim 1 1 0 "s" [("user", "a"), ("assistant", "b"), ("user", "c")] []
    (by decide) (by decide)

theorem get_history_session_counter (now : Nat) (m : SessionManager) (sid : Option String) :
    (get_conversation_history now m sid).fst.session_counter = m.session_counter := by
  unfold get_conversation_history
  cases sid with
  | none => rfl
  | some s =>
    by_cases hie : s.isEmpty
    · simp [hie]
    · simp only [hie, Bool.false_eq_true, if_false]
      cases hf : dictFind? m.sessions s with
      | none => rfl
      | some info =>
        by_cases hm : info.messages.isEmpty
        · simp [hm]
        · simp [hm]

/-- Claim C8 (counterexample): the empty string is a possible session id
(implicit creation via `add_message`), yet `get_conversation_history` still
returns `None` for it because Python's `not session_id` is true for `""` —
so "returns None exactly when the id is unknown or has no messages"
fails. -/
theorem get_history_falsy_id :
    (get_conversation_history 1 (add_message 0 (initStore 5) "" "user" "hi") (some "")).snd
        = none ∧
    dictFind? (add_message 0 (initStore 5) "" "user" "hi").sessions "" ≠ none ∧
    sessionMessages (add_message 0 (initStore 5) "" "user" "hi") "" ≠ [] := by
  refine ⟨rfl, ?_, ?_⟩ <;> decide

/-- Claim C8 (amended): `get_conversation_history` returns `None` exactly
when the id is `None` or the empty string (Python falsiness), unknown to the
store, or names a session with no messages — never an error; otherwise it
refreshes the session's last-activity timestamp and returns the
newline-joined `"<Role>: <content>"` rendering of the messages in insertion
order, oldest first. -/
theorem get_history_characterization (now : Nat) (m : SessionManager) :
    (get_conversation_history now m none).snd = none ∧
    (get_conversation_history now m (some "")).snd = none ∧
    (∀ sid, sid ≠ "" → dictFind? m.sessions sid = none →
      (get_conversation_history now m (some sid)).snd = none) ∧
    (∀ sid s, sid ≠ "" → dictFind? m.sessions sid = some s → s.messages = [] →
      (get_conversation_history now m (some sid)).snd = none) ∧
    (∀ sid s, sid ≠ "" → dictFind? m.sessions sid = some s → s.messages ≠ [] →
      (get_conversation_history now m (some sid)).snd
          = some (format_history s.messages) ∧
        dictFind? (get_conversation_history now m (some sid)).fst.sessions sid
          = some ({ s with last_activity := now })) := by
  have hie : ∀ sid : String, sid ≠ "" → sid.isEmpty = false := by
    intro sid hs
    cases hx : sid.isEmpty
    · rfl
    · exact absurd ((String.isEmpty_iff sid).mp hx) hs
  refine ⟨rfl, rfl, ?_, ?_, ?_⟩
  · intro sid hs hf
    simp [get_conversation_history, hie sid hs, hf]
  · intro sid s hs hf hm
    simp [get_conversation_history, hie sid hs, hf, hm]
  · intro sid s hs hf hm
    have hme : s.messages.isEmpty = false := by
      cases hml : s.messages with
      | nil => exact absurd hml hm
      | cons a l => rfl
    constructor
    · simp [get_conversation_history, hie sid hs, hf, hme]
    · simp [get_conversation_history, hie sid hs, hf, hme, dictFind?_insert_self]

/-- Claim C8 (witness): a concrete lookup renders the stored message with a
title-cased role label. -/
theorem get_history_characterization_witness :
    (get_conversation_history 7 (add_message 0 (initStore 5) "sid" "user" "hi") (some "sid")).snd
      = some "User: hi" := by
  have h := (get_history_characterization 7 (add_message 0 (initStore 5) "sid" "user" "hi")).2.2.2.2
  have h2 := h "sid" ⟨"sid", [⟨"user", "hi", 0⟩], 0, 0⟩ (by decide) (by decide) (by decide)
  rw [h2.1]
  rfl

/-- Claim C9 (counterexample): `create_session` can mint an id that names an
existing session created implicitly through `add_message` with a
caller-chosen id, overwriting it — so create never yielding an id of an
existing session fails. -/
theorem create_collides_with_implicit_session :
    (create_session 1 (add_message 0 (initStore 5) "session_1" "user" "hi")).snd
        = "session_1" ∧
    dictFind? (add_message 0 (initStore 5) "session_1" "user" "hi").sessions "session_1"
      ≠ none := by
  refine ⟨?_, ?_⟩ <;> decide

/-- Claim C9 (amended): ids minted by `create_session` embed a strictly
increasing counter: the counter never decreases under any store operation
(including `clear_session`), each `create_session` bumps it by one and
returns `"session_<counter>"`, so the counter values stamped by any two
`create_session` calls in one run are distinct; global uniqueness does not
hold against caller-chosen ids fed to `add_message` (see the
counterexample). -/
theorem create_counter_monotone :
    (∀ (m : SessionManager) (now : Nat),
        (create_session now m).snd = "session_" ++ toString (m.session_counter + 1) ∧
        (create_session now m).fst.session_counter = m.session_counter + 1) ∧
    (∀ (m : SessionManager) (op : StoreOp),
        m.session_counter ≤ (applyOp m op).session_counter) ∧
    (∀ (m : SessionManager) (ops : List StoreOp),
        m.session_counter ≤ (applyOps m ops).session_counter) ∧
    (∀ (m : SessionManager) (now1 : Nat) (ops : List StoreOp),
        m.session_counter + 1
          < (applyOps (create_session now1 m).fst ops).session_counter + 1) := by
  have hop : ∀ (m : SessionManager) (op : StoreOp),
      m.session_counter ≤ (applyOp m op).session_counter := by
    intro m op
    cases op with
    | create now => exact Nat.le_succ _
    | addMessage now sid role content =>
      show m.session_counter ≤ (add_message now m sid role content).session_counter
      rw [add_message_session_counter]
    | addExchange now sid u a =>
      show m.session_counter ≤ (add_exchange now m sid u a).session_counter
      unfold add_exchange
      rw [add_message_session_counter, add_message_session_counter]
    | getHistory now sid =>
      show m.session_counter ≤ (get_conversation_history now m sid).fst.session_counter
      rw [get_history_session_counter]
    | clear sid => exact Nat.le_refl _
  have hops : ∀ (ops : List StoreOp) (m : SessionManager),
      m.session_counter ≤ (applyOps m ops).session_counter := by
    intro ops
    induction ops with
    | nil => intro m; exact Nat.le_refl _
    | cons op rest ih =>
      intro m
      exact Nat.le_trans (hop m op) (ih (applyOp m op))
  refine ⟨fun m now => ⟨rfl, rfl⟩, hop, fun m ops => hops ops m, ?_⟩
  intro m now1 ops
  have h1 := hops ops (create_session now1 m).fst
  have h2 : (create_session now1 m).fst.session_counter = m.session_counter + 1 := rfl
  omega

end RagChatbot
